import Mathlib

/-!
Shallow embedding of the social-media backend (user accounts, tweets,
comments, likes, follows) and proofs of its specification's claims.

The route handlers of `src/routes/tweets.js`, the users router and comments
router, and the auth router are embedded as pure functions over an explicit
database state `DB`.  MongoDB document identifiers become `Nat`; each
handler becomes a function `DB → ... → DB × Except ApiError α` where the
returned `DB` is the post-state (equal to the input state whenever the
handler returns before any write).
-/

/-- Error taxonomy as the handlers actually report it:
`validation` is a 400 with a field-error array (express-validator),
`badRequest` a 400 with a message (self-follow, duplicate email/username),
`forbidden` the 401 "User not authorized" returned to a non-owner,
`notFound` a 404, and `internal` the 500 "Server error" produced by the
outermost catch (including a Mongoose validation failure at save time). -/
inductive ApiError where
  | validation
  | badRequest
  | forbidden
  | notFound
  | internal
deriving Repr, DecidableEq

/-- Modelled from the spec: `src/models/User.js` is not under `src/`;
per §3 a User carries a unique handle, contact address, display name,
credential hash, optional profile/cover image references, free-text
bio/location/website, a verification flag and the two edge sequences
`following`/`followers` (ordered sequences of User identifiers). -/
structure User where
  id : Nat
  name : String
  username : String
  email : String
  password : String
  profilePicture : Option String
  coverPhoto : Option String
  bio : String
  location : String
  website : String
  isVerified : Bool
  followers : List Nat
  following : List Nat
deriving Repr, DecidableEq

/-- `TweetSchema` of `src/models/Tweet.js`: author, content, optional image,
`likes`/`retweets`/`comments` identifier sequences, optional `parent`,
`isRetweet`, and the two timestamps maintained by `timestamps: true`
(`createdAt` set at creation, `updatedAt` refreshed by every save or
update of the document). -/
structure Tweet where
  id : Nat
  user : Nat
  content : String
  image : Option String
  likes : List Nat
  retweets : List Nat
  comments : List Nat
  parent : Option Nat
  isRetweet : Bool
  createdAt : Nat
  updatedAt : Nat
deriving Repr, DecidableEq

/-- `CommentSchema` of `src/models/Comment.js`: author, parent tweet,
content, `likes`, and the `timestamps: true` pair (`createdAt`,
`updatedAt`). -/
structure Comment where
  id : Nat
  user : Nat
  tweet : Nat
  content : String
  likes : List Nat
  createdAt : Nat
  updatedAt : Nat
deriving Repr, DecidableEq

/-- The document store: the three collections. -/
structure DB where
  users : List User
  tweets : List Tweet
  comments : List Comment
deriving Repr, DecidableEq

/-- `User.findById` / `findOne({_id})`. -/
def findUser (db : DB) (i : Nat) : Option User :=
  db.users.find? (fun u => u.id == i)

/-- `User.findOne({username})`. -/
def findUserByUsername (db : DB) (uname : String) : Option User :=
  db.users.find? (fun u => u.username == uname)

/-- `Tweet.findById`. -/
def findTweet (db : DB) (i : Nat) : Option Tweet :=
  db.tweets.find? (fun t => t.id == i)

/-- `Comment.findById`. -/
def findComment (db : DB) (i : Nat) : Option Comment :=
  db.comments.find? (fun c => c.id == i)

/-- `User.findByIdAndUpdate(i, ...)`: replace the document with matching
identifier. -/
def updateUser (db : DB) (i : Nat) (f : User → User) : DB :=
  { db with users := db.users.map (fun u => if u.id == i then f u else u) }

/-- The like/unlike step shared verbatim by the tweet handler
(`POST /:id/like` in `src/routes/tweets.js`) and the comment handler:
if the caller is in `likes`, filter it out; otherwise `unshift` it. -/
def toggleLikes (likes : List Nat) (uid : Nat) : List Nat :=
  if likes.contains uid then
    likes.filter (fun l => l != uid)
  else
    uid :: likes

/-- `POST /tweets/:id/like`: fetch the tweet (404 when absent), toggle the
caller in its `likes`, then `tweet.save()` — which, with
`timestamps: true`, also refreshes the document's `updatedAt` to the
save time `now` — and respond with the new `likes`. -/
def likeTweet (db : DB) (uid tid now : Nat) : DB × Except ApiError (List Nat) :=
  match findTweet db tid with
  | none => (db, .error .notFound)
  | some t =>
      let newLikes := toggleLikes t.likes uid
      ({ db with
          tweets := db.tweets.map
            (fun x =>
              if x.id == tid then { x with likes := newLikes, updatedAt := now }
              else x) },
        .ok newLikes)

/-- `POST /comments/:id/like`: identical toggle on a Comment, with the
same save-time `updatedAt` refresh. -/
def likeComment (db : DB) (uid cid now : Nat) : DB × Except ApiError (List Nat) :=
  match findComment db cid with
  | none => (db, .error .notFound)
  | some c =>
      let newLikes := toggleLikes c.likes uid
      ({ db with
          comments := db.comments.map
            (fun x =>
              if x.id == cid then { x with likes := newLikes, updatedAt := now }
              else x) },
        .ok newLikes)

/-- `POST /tweets` (`src/routes/tweets.js`).  Route-level validation by
express-validator: an error when content is empty unless a file was
uploaded (`.not().isEmpty().unless(req.file)`), an error when content
exceeds 280 characters; any error yields a 400.  The document is then
built with `content: req.body.content || ''` and saved; Mongoose schema
validation at save time rejects an empty string for the `required`
`content` path (and content over the 280 `maxlength`), which the
handler's catch turns into a 500. -/
def createTweet (db : DB) (uid newId now : Nat) (content : Option String)
    (file : Option String) : DB × Except ApiError Tweet :=
  let body := content.getD ""
  let routeBad := (body = "" ∧ file = none) ∨ body.length > 280
  if routeBad then (db, .error .validation)
  else
    if body = "" ∨ body.length > 280 then (db, .error .internal)
    else
      let t : Tweet :=
        { id := newId, user := uid, content := body, image := file,
          likes := [], retweets := [], comments := [], parent := none,
          isRetweet := false, createdAt := now, updatedAt := now }
      ({ db with tweets := t :: db.tweets }, .ok t)

/-- `DELETE /tweets/:id`: fetch (404 when absent), ownership check (401
when the caller is not the author), then `Comment.deleteMany({tweet})`
and `tweet.deleteOne()`. -/
def deleteTweet (db : DB) (uid tid : Nat) : DB × Except ApiError Unit :=
  match findTweet db tid with
  | none => (db, .error .notFound)
  | some t =>
      if t.user != uid then (db, .error .forbidden)
      else
        ({ db with
            comments := db.comments.filter (fun c => c.tweet != tid),
            tweets := db.tweets.filter (fun x => x.id != tid) },
          .ok ())

/-- `DELETE /comments/:id`: fetch (404), ownership check (401), then
`findByIdAndUpdate` the parent tweet with `$pull` — which, with
`timestamps: true`, also refreshes that tweet's `updatedAt` — and delete
the comment. -/
def deleteComment (db : DB) (uid cid now : Nat) : DB × Except ApiError Unit :=
  match findComment db cid with
  | none => (db, .error .notFound)
  | some c =>
      if c.user != uid then (db, .error .forbidden)
      else
        ({ db with
            tweets := db.tweets.map
              (fun t =>
                if t.id == c.tweet then
                  { t with comments := t.comments.filter (fun x => x != cid),
                           updatedAt := now }
                else t),
            comments := db.comments.filter (fun x => x.id != cid) },
          .ok ())

/-- `POST /users/:id/follow` (users router).  Self-follow is a 400 before
any lookup; a missing target is a 404; then toggle: when the target is in
the caller's `following`, `$pull` both edges, otherwise `$push` both
(`$push` appends at the end).  The caller record is re-fetched by
`findById`; the handler dereferences it unconditionally, so its absence
surfaces as the catch-all 500.
The follow branch's two `$push` writes: append the target to the
caller's `following`, then append the caller to the target's `followers`. -/
def followPush (db : DB) (uid tid : Nat) : DB :=
  updateUser
    (updateUser db uid (fun u => { u with following := u.following ++ [tid] }))
    tid
    (fun u => { u with followers := u.followers ++ [uid] })

/-- The unfollow branch's two `$pull` writes: remove the target from the
caller's `following`, then remove the caller from the target's `followers`. -/
def followPull (db : DB) (uid tid : Nat) : DB :=
  updateUser
    (updateUser db uid
      (fun u => { u with following := u.following.filter (fun x => x != tid) }))
    tid
    (fun u => { u with followers := u.followers.filter (fun x => x != uid) })

/-- `POST /users/:id/follow`: the toggle dispatch as written in the
handler. -/
def follow (db : DB) (uid tid : Nat) : DB × Except ApiError String :=
  if tid == uid then (db, .error .badRequest)
  else
    match findUser db tid with
    | none => (db, .error .notFound)
    | some _ =>
        match findUser db uid with
        | none => (db, .error .internal)
        | some cur =>
            if cur.following.contains tid then
              (followPull db uid tid, .ok "User unfollowed")
            else
              (followPush db uid tid, .ok "User followed")

/-- The comparator behind `.sort({ createdAt: -1 })`: newest first. -/
def byNewest (a b : Tweet) : Prop := b.createdAt ≤ a.createdAt

instance : DecidableRel byNewest := fun a b => by
  unfold byNewest; infer_instance

instance : IsTotal Tweet byNewest :=
  ⟨fun a b => le_total b.createdAt a.createdAt⟩

instance : IsTrans Tweet byNewest :=
  ⟨fun _ _ _ h1 h2 => le_trans h2 h1⟩

/-- `GET /tweets/timeline`: fetch the caller (dereferenced
unconditionally, so absence is a 500), then
`Tweet.find({$or: [{user: uid}, {user: {$in: following}}]})`
sorted by `createdAt` descending and limited to 50. -/
def timeline (db : DB) (uid : Nat) : DB × Except ApiError (List Tweet) :=
  match findUser db uid with
  | none => (db, .error .internal)
  | some cur =>
      (db, .ok
        ((List.insertionSort byNewest
          (db.tweets.filter
            (fun t => t.user == uid || cur.following.contains t.user))).take 50))

/-- Profile fields a `PUT /users` request may carry.  Body fields arrive
as strings when present (`none` = absent from the body); uploaded files
arrive as stored paths. -/
structure UpdateReq where
  name : Option String
  bio : Option String
  location : Option String
  website : Option String
  profilePictureFile : Option String
  coverPhotoFile : Option String
deriving Repr, DecidableEq

/-- The `userFields` object built by `PUT /users`: each body field is
copied only when truthy (`if (name) userFields.name = name` — a present
empty string is falsy and is skipped), each file when uploaded; then
`$set` applies exactly the collected keys. -/
def applyPatch (r : UpdateReq) (u : User) : User :=
  { u with
    name := match r.name with
      | some s => if s = "" then u.name else s
      | none => u.name,
    bio := match r.bio with
      | some s => if s = "" then u.bio else s
      | none => u.bio,
    location := match r.location with
      | some s => if s = "" then u.location else s
      | none => u.location,
    website := match r.website with
      | some s => if s = "" then u.website else s
      | none => u.website,
    profilePicture := match r.profilePictureFile with
      | some p => some p
      | none => u.profilePicture,
    coverPhoto := match r.coverPhotoFile with
      | some p => some p
      | none => u.coverPhoto }

/-- A User as returned by reads that `.select('-password')`: every
attribute except the credential hash. -/
structure PublicUser where
  id : Nat
  name : String
  username : String
  email : String
  profilePicture : Option String
  coverPhoto : Option String
  bio : String
  location : String
  website : String
  isVerified : Bool
  followers : List Nat
  following : List Nat
deriving Repr, DecidableEq

/-- The projection `.select('-password')` applies to a fetched User. -/
def stripPassword (u : User) : PublicUser :=
  { id := u.id, name := u.name, username := u.username, email := u.email,
    profilePicture := u.profilePicture, coverPhoto := u.coverPhoto,
    bio := u.bio, location := u.location, website := u.website,
    isVerified := u.isVerified, followers := u.followers,
    following := u.following }

/-- `PUT /users`: build `userFields`, `findByIdAndUpdate` the caller with
`$set`, return the updated document without the hash. -/
def updateProfile (db : DB) (uid : Nat) (r : UpdateReq) :
    DB × Except ApiError (Option PublicUser) :=
  let db' := updateUser db uid (applyPatch r)
  (db', .ok ((findUser db' uid).map stripPassword))

/-- `GET /users/me`: `findById(req.user._id).select('-password')`,
404 when absent. -/
def getMe (db : DB) (uid : Nat) : DB × Except ApiError PublicUser :=
  match findUser db uid with
  | none => (db, .error .notFound)
  | some u => (db, .ok (stripPassword u))

/-- `GET /users/:username`: `findOne({username}).select('-password')`,
404 when absent. -/
def getUserByUsername (db : DB) (uname : String) :
    DB × Except ApiError PublicUser :=
  match findUserByUsername db uname with
  | none => (db, .error .notFound)
  | some u => (db, .ok (stripPassword u))

/-- A registration request body. -/
structure RegisterReq where
  name : String
  username : String
  email : String
  password : String
deriving Repr, DecidableEq

/-- Modelled from the spec: the email-shape test is performed by
express-validator's `isEmail`, an external dependency the spec scopes out
("request validation middleware" is an external collaborator); only the
presence of some shape check matters here. -/
def emailShaped (s : String) : Bool := s.contains (Char.ofNat 64)

/-- Modelled from the spec: `src/models/User.js` is not under `src/`; per
§3 and §4.1 the credential is hashed by a one-way function before
persistence. -/
def hashPassword (s : String) : String := String.append "hashed:" s

/-- `POST /auth/register` (`src/routes/auth.js`).  Validators: name
nonempty, username nonempty, email shaped, password at least 6
characters; any failure is a 400 with the error array.  Then duplicate
email, then duplicate username, each a 400 message; otherwise the User is
created. -/
def register (db : DB) (newId : Nat) (r : RegisterReq) :
    DB × Except ApiError PublicUser :=
  let bad := r.name = "" ∨ r.username = "" ∨ ¬emailShaped r.email ∨ r.password.length < 6
  if bad then (db, .error .validation)
  else if (db.users.find? (fun u => u.email == r.email)).isSome then
    (db, .error .badRequest)
  else if (db.users.find? (fun u => u.username == r.username)).isSome then
    (db, .error .badRequest)
  else
    let u : User :=
      { id := newId, name := r.name, username := r.username, email := r.email,
        password := hashPassword r.password, profilePicture := none,
        coverPhoto := none, bio := "", location := "", website := "",
        isVerified := false, followers := [], following := [] }
    ({ db with users := db.users ++ [u] }, .ok (stripPassword u))

/-- Replacing every user's stored hash by an arbitrary function of its
identifier: two stores related by this differ only in credential hashes. -/
def setPasswords (db : DB) (f : Nat → String) : DB :=
  { db with users := db.users.map (fun u => { u with password := f u.id }) }

/-- `following`/`followers` carry no duplicate edge (spec §3). -/
def EdgesNodup (db : DB) : Prop :=
  ∀ u ∈ db.users, u.following.Nodup ∧ u.followers.Nodup

/-- Document identifiers are unique within the users collection. -/
def IdsNodup (db : DB) : Prop := (db.users.map User.id).Nodup

/-- Edge symmetry (spec §3): `B ∈ A.following ↔ A ∈ B.followers`. -/
def EdgeSym (db : DB) : Prop :=
  ∀ a ∈ db.users, ∀ b ∈ db.users, (b.id ∈ a.following ↔ a.id ∈ b.followers)

/-- The social-graph invariant: unique identifiers, duplicate-free edge
sequences, and edge symmetry. -/
def GraphInv (db : DB) : Prop := IdsNodup db ∧ EdgesNodup db ∧ EdgeSym db

instance (db : DB) : Decidable (EdgesNodup db) := by
  unfold EdgesNodup; infer_instance

instance (db : DB) : Decidable (EdgeSym db) := by
  unfold EdgeSym; infer_instance

instance (db : DB) : Decidable (GraphInv db) := by
  unfold GraphInv IdsNodup; infer_instance

/-- Pointwise effect of the two push writes on a single user document. -/
def pushFn (uid tid : Nat) (u : User) : User :=
  if u.id = uid then { u with following := u.following ++ [tid] }
  else if u.id = tid then { u with followers := u.followers ++ [uid] }
  else u

/-- Pointwise effect of the two pull writes on a single user document. -/
def pullFn (uid tid : Nat) (u : User) : User :=
  if u.id = uid then { u with following := u.following.filter (fun x => x != tid) }
  else if u.id = tid then { u with followers := u.followers.filter (fun x => x != uid) }
  else u

/-- Concrete documents used by the witness theorems below. -/
def uW0 : User :=
  { id := 0, name := "alice", username := "alice", email := "alice@x",
    password := "hashed:p1", profilePicture := none, coverPhoto := none,
    bio := "hello", location := "", website := "", isVerified := false,
    followers := [], following := [] }

def uW1 : User :=
  { uW0 with
    id := 1, name := "bob", username := "bob", email := "bob@x",
    password := "hashed:p2", bio := "" }

def tW7 : Tweet :=
  { id := 7, user := 0, content := "hi", image := none, likes := [1, 0],
    retweets := [], comments := [9], parent := none, isRetweet := false,
    createdAt := 3, updatedAt := 3 }

def tW8 : Tweet :=
  { id := 8, user := 1, content := "yo", image := none, likes := [],
    retweets := [], comments := [], parent := none, isRetweet := false,
    createdAt := 5, updatedAt := 5 }

def cW9 : Comment :=
  { id := 9, user := 1, tweet := 7, content := "nice", likes := [0],
    createdAt := 4, updatedAt := 4 }

def dbW : DB := { users := [uW0, uW1], tweets := [tW7, tW8], comments := [cW9] }

/-- A profile-update request supplying `bio` as the empty string. -/
def rC7 : UpdateReq :=
  { name := none, bio := some "", location := none, website := none,
    profilePictureFile := none, coverPhotoFile := none }

/-- A profile-update request supplying a non-empty name and a cover photo. -/
def rW : UpdateReq :=
  { name := some "alice2", bio := none, location := none, website := none,
    profilePictureFile := none, coverPhotoFile := some "cover.jpg" }


/- ### Generic lookup lemmas -/

theorem find?_map_of_key {α β : Type} [BEq β] (key : α → β) (F : α → α)
    (hF : ∀ x, key (F x) = key x) (j : β) (l : List α) :
    (l.map F).find? (fun x => key x == j) = (l.find? (fun x => key x == j)).map F := by
  rw [List.find?_map]
  have h : ((fun x => key x == j) ∘ F) = (fun x => key x == j) := by
    funext x
    simp [Function.comp, hF]
  rw [h]

theorem key_of_find? {α β : Type} [BEq β] [LawfulBEq β] (key : α → β) {l : List α}
    {j : β} {a : α} (h : l.find? (fun x => key x == j) = some a) : key a = j := by
  have := List.find?_some h
  simpa using this

theorem eq_of_key_nodup {α : Type} (key : α → Nat) {l : List α}
    (hnd : (l.map key).Nodup) {a b : α} (ha : a ∈ l) (hb : b ∈ l)
    (h : key a = key b) : a = b := by
  induction l with
  | nil => cases ha
  | cons x xs ih =>
      rw [List.map_cons, List.nodup_cons] at hnd
      cases ha with
      | head =>
          cases hb with
          | head => rfl
          | tail _ hb' =>
              have : key a ∈ xs.map key := h ▸ List.mem_map_of_mem key hb'
              exact absurd this hnd.1
      | tail _ ha' =>
          cases hb with
          | head =>
              have : key b ∈ xs.map key := h ▸ List.mem_map_of_mem key ha'
              exact absurd this hnd.1
          | tail _ hb' => exact ih hnd.2 ha' hb'

/- ### Toggle-like algorithm lemmas -/

theorem toggleLikes_of_mem {l : List Nat} {u : Nat} (h : u ∈ l) :
    toggleLikes l u = l.filter (fun x => x != u) := by
  simp [toggleLikes, h]

theorem toggleLikes_of_not_mem {l : List Nat} {u : Nat} (h : u ∉ l) :
    toggleLikes l u = u :: l := by
  simp [toggleLikes, h]

theorem toggleLikes_count (l : List Nat) (u : Nat) :
    (toggleLikes l u).count u ≤ 1 := by
  by_cases h : u ∈ l
  · rw [toggleLikes_of_mem h]
    have : u ∉ l.filter (fun x => x != u) := by
      intro hmem
      have := List.of_mem_filter hmem
      simp at this
    simp [List.count_eq_zero_of_not_mem this]
  · rw [toggleLikes_of_not_mem h]
    simp [List.count_eq_zero_of_not_mem h]

theorem toggleLikes_twice_mem (l : List Nat) (u x : Nat) :
    x ∈ toggleLikes (toggleLikes l u) u ↔ x ∈ l := by
  by_cases h : u ∈ l
  · rw [toggleLikes_of_mem h]
    have hu : u ∉ l.filter (fun x => x != u) := by
      intro hmem
      have := List.of_mem_filter hmem
      simp at this
    rw [toggleLikes_of_not_mem hu]
    by_cases hx : x = u
    · subst hx; simp [h]
    · simp [List.mem_filter, hx]
  · rw [toggleLikes_of_not_mem h]
    have : u ∈ u :: l := List.mem_cons_self u l
    rw [toggleLikes_of_mem this]
    have heq : (u :: l).filter (fun x => x != u) = l := by
      rw [List.filter_cons]
      simp only [bne_self_eq_false]
      simp only [Bool.false_eq_true, if_neg, if_false]
      exact List.filter_eq_self.mpr (fun a ha => by
        simp only [bne_iff_ne, ne_eq, decide_eq_true_eq]
        intro hau
        exact h (hau ▸ ha))
    rw [heq]

theorem toggleLikes_twice_of_not_mem {l : List Nat} {u : Nat} (h : u ∉ l) :
    toggleLikes (toggleLikes l u) u = l := by
  rw [toggleLikes_of_not_mem h]
  rw [toggleLikes_of_mem (List.mem_cons_self u l)]
  rw [List.filter_cons]
  simp only [bne_self_eq_false]
  simp only [Bool.false_eq_true, if_neg, if_false]
  exact List.filter_eq_self.mpr (fun a ha => by
    simp only [bne_iff_ne, ne_eq, decide_eq_true_eq]
    intro hau
    exact h (hau ▸ ha))

/- ### Follow/unfollow infrastructure -/

theorem pushFn_id (uid tid : Nat) (u : User) : (pushFn uid tid u).id = u.id := by
  unfold pushFn
  split_ifs <;> rfl

theorem pullFn_id (uid tid : Nat) (u : User) : (pullFn uid tid u).id = u.id := by
  unfold pullFn
  split_ifs <;> rfl

theorem pushFn_following (uid tid : Nat) (u : User) :
    (pushFn uid tid u).following =
      if u.id = uid then u.following ++ [tid] else u.following := by
  unfold pushFn
  split_ifs <;> simp_all

theorem pushFn_followers (uid tid : Nat) (hne : uid ≠ tid) (u : User) :
    (pushFn uid tid u).followers =
      if u.id = tid then u.followers ++ [uid] else u.followers := by
  unfold pushFn
  split_ifs <;> simp_all

theorem pullFn_following (uid tid : Nat) (u : User) :
    (pullFn uid tid u).following =
      if u.id = uid then u.following.filter (fun x => x != tid) else u.following := by
  unfold pullFn
  split_ifs <;> simp_all

theorem pullFn_followers (uid tid : Nat) (hne : uid ≠ tid) (u : User) :
    (pullFn uid tid u).followers =
      if u.id = tid then u.followers.filter (fun x => x != uid) else u.followers := by
  unfold pullFn
  split_ifs <;> simp_all

theorem followPush_users (db : DB) (uid tid : Nat) (hne : uid ≠ tid) :
    (followPush db uid tid).users = db.users.map (pushFn uid tid) := by
  unfold followPush updateUser pushFn
  simp only [List.map_map]
  congr 1
  funext u
  simp only [Function.comp_apply, beq_iff_eq]
  split_ifs <;> simp_all

theorem followPull_users (db : DB) (uid tid : Nat) (hne : uid ≠ tid) :
    (followPull db uid tid).users = db.users.map (pullFn uid tid) := by
  unfold followPull updateUser pullFn
  simp only [List.map_map]
  congr 1
  funext u
  simp only [Function.comp_apply, beq_iff_eq]
  split_ifs <;> simp_all

theorem findUser_followPush (db : DB) (uid tid j : Nat) (hne : uid ≠ tid) :
    findUser (followPush db uid tid) j = (findUser db j).map (pushFn uid tid) := by
  unfold findUser
  rw [followPush_users db uid tid hne]
  exact find?_map_of_key User.id (pushFn uid tid) (pushFn_id uid tid) j db.users

theorem findUser_followPull (db : DB) (uid tid j : Nat) (hne : uid ≠ tid) :
    findUser (followPull db uid tid) j = (findUser db j).map (pullFn uid tid) := by
  unfold findUser
  rw [followPull_users db uid tid hne]
  exact find?_map_of_key User.id (pullFn uid tid) (pullFn_id uid tid) j db.users

theorem toggleLikes_frame (l : List Nat) (u : Nat) :
    (toggleLikes l u).filter (fun x => x != u) = l.filter (fun x => x != u) := by
  by_cases h : u ∈ l
  · rw [toggleLikes_of_mem h, List.filter_filter]
    congr 1
    funext a
    exact Bool.and_self _
  · rw [toggleLikes_of_not_mem h, List.filter_cons]
    simp

theorem graphInv_followPush (db : DB) (uid tid : Nat) (uA uB : User)
    (hAB : uid ≠ tid)
    (hA : findUser db uid = some uA) (hB : findUser db tid = some uB)
    (hnew : tid ∉ uA.following)
    (hinv : GraphInv db) : GraphInv (followPush db uid tid) := by
  obtain ⟨hids, hend, hsym⟩ := hinv
  have hAid : uA.id = uid := key_of_find? User.id hA
  have hBid : uB.id = tid := key_of_find? User.id hB
  have hAmem : uA ∈ db.users := List.mem_of_find?_eq_some hA
  have hBmem : uB ∈ db.users := List.mem_of_find?_eq_some hB
  have hBnew : uid ∉ uB.followers := by
    intro hmem
    have h1 : uA.id ∈ uB.followers := by rw [hAid]; exact hmem
    have h2 : uB.id ∈ uA.following := (hsym uA hAmem uB hBmem).mpr h1
    rw [hBid] at h2
    exact hnew h2
  have husers := followPush_users db uid tid hAB
  refine ⟨?_, ?_, ?_⟩
  · unfold IdsNodup
    rw [husers, List.map_map]
    have hcomp : (User.id ∘ pushFn uid tid) = User.id := funext (pushFn_id uid tid)
    rw [hcomp]
    exact hids
  · intro u' hu'
    rw [husers] at hu'
    obtain ⟨u, hu, rfl⟩ := List.mem_map.mp hu'
    obtain ⟨hfo, hfl⟩ := hend u hu
    rw [pushFn_following uid tid u, pushFn_followers uid tid hAB u]
    constructor
    · by_cases h1 : u.id = uid
      · rw [if_pos h1]
        have huA : u = uA := eq_of_key_nodup User.id hids hu hAmem (by rw [h1, hAid])
        subst huA
        simp [List.nodup_append, hfo, hnew]
      · rw [if_neg h1]; exact hfo
    · by_cases h2 : u.id = tid
      · rw [if_pos h2]
        have huB : u = uB := eq_of_key_nodup User.id hids hu hBmem (by rw [h2, hBid])
        subst huB
        simp [List.nodup_append, hfl, hBnew]
      · rw [if_neg h2]; exact hfl
  · intro x' hx' y' hy'
    rw [husers] at hx' hy'
    obtain ⟨x, hx, rfl⟩ := List.mem_map.mp hx'
    obtain ⟨y, hy, rfl⟩ := List.mem_map.mp hy'
    rw [pushFn_id uid tid y, pushFn_id uid tid x,
        pushFn_following uid tid x, pushFn_followers uid tid hAB y]
    have hbase := hsym x hx y hy
    by_cases hx1 : x.id = uid
    · by_cases hy1 : y.id = tid
      · rw [if_pos hx1, if_pos hy1]
        simp [List.mem_append, hx1, hy1]
      · rw [if_pos hx1, if_neg hy1]
        rw [List.mem_append, List.mem_singleton]
        constructor
        · intro h
          cases h with
          | inl h => exact hbase.mp h
          | inr h => exact absurd h hy1
        · intro h
          exact Or.inl (hbase.mpr h)
    · by_cases hy1 : y.id = tid
      · rw [if_neg hx1, if_pos hy1]
        rw [List.mem_append, List.mem_singleton]
        constructor
        · intro h
          exact Or.inl (hbase.mp h)
        · intro h
          cases h with
          | inl h => exact hbase.mpr h
          | inr h => exact absurd h hx1
      · rw [if_neg hx1, if_neg hy1]; exact hbase

theorem graphInv_followPull (db : DB) (uid tid : Nat)
    (hAB : uid ≠ tid) (hinv : GraphInv db) : GraphInv (followPull db uid tid) := by
  obtain ⟨hids, hend, hsym⟩ := hinv
  have husers := followPull_users db uid tid hAB
  refine ⟨?_, ?_, ?_⟩
  · unfold IdsNodup
    rw [husers, List.map_map]
    have hcomp : (User.id ∘ pullFn uid tid) = User.id := funext (pullFn_id uid tid)
    rw [hcomp]
    exact hids
  · intro u' hu'
    rw [husers] at hu'
    obtain ⟨u, hu, rfl⟩ := List.mem_map.mp hu'
    obtain ⟨hfo, hfl⟩ := hend u hu
    rw [pullFn_following uid tid u, pullFn_followers uid tid hAB u]
    constructor
    · by_cases h1 : u.id = uid
      · rw [if_pos h1]; exact hfo.filter _
      · rw [if_neg h1]; exact hfo
    · by_cases h2 : u.id = tid
      · rw [if_pos h2]; exact hfl.filter _
      · rw [if_neg h2]; exact hfl
  · intro x' hx' y' hy'
    rw [husers] at hx' hy'
    obtain ⟨x, hx, rfl⟩ := List.mem_map.mp hx'
    obtain ⟨y, hy, rfl⟩ := List.mem_map.mp hy'
    rw [pullFn_id uid tid y, pullFn_id uid tid x,
        pullFn_following uid tid x, pullFn_followers uid tid hAB y]
    have hbase := hsym x hx y hy
    by_cases hx1 : x.id = uid
    · by_cases hy1 : y.id = tid
      · rw [if_pos hx1, if_pos hy1]
        simp [List.mem_filter, hx1, hy1]
      · rw [if_pos hx1, if_neg hy1]
        rw [List.mem_filter]
        simp only [bne_iff_ne, ne_eq, decide_eq_true_eq]
        constructor
        · intro h
          exact hbase.mp h.1
        · intro h
          exact ⟨hbase.mpr h, hy1⟩
    · by_cases hy1 : y.id = tid
      · rw [if_neg hx1, if_pos hy1]
        rw [List.mem_filter]
        simp only [bne_iff_ne, ne_eq, decide_eq_true_eq]
        constructor
        · intro h
          exact ⟨hbase.mp h, hx1⟩
        · intro h
          exact hbase.mpr h.1
      · rw [if_neg hx1, if_neg hy1]; exact hbase

/-- C2: for distinct users A and B (both existing) in a store satisfying
the graph invariant, with no current A→B edge: the first `follow(A,B)`
completes as a follow and establishes `B ∈ A.following` and
`A ∈ B.followers`; the second call completes as an unfollow and removes
both edges; after each completed call the store again satisfies edge
symmetry (`B ∈ A.following ↔ A ∈ B.followers` for every pair) and no
`following`/`followers` sequence contains duplicates. -/
theorem C2_follow_toggle_symmetry (db : DB) (uid tid : Nat) (uA uB : User)
    (hAB : uid ≠ tid)
    (hA : findUser db uid = some uA) (hB : findUser db tid = some uB)
    (hnew : tid ∉ uA.following)
    (hinv : GraphInv db) :
    ∃ db₁ db₂ uA₁ uB₁ uA₂ uB₂,
      follow db uid tid = (db₁, .ok "User followed") ∧
      findUser db₁ uid = some uA₁ ∧ findUser db₁ tid = some uB₁ ∧
      tid ∈ uA₁.following ∧ uid ∈ uB₁.followers ∧ GraphInv db₁ ∧
      follow db₁ uid tid = (db₂, .ok "User unfollowed") ∧
      findUser db₂ uid = some uA₂ ∧ findUser db₂ tid = some uB₂ ∧
      tid ∉ uA₂.following ∧ uid ∉ uB₂.followers ∧ GraphInv db₂ := by
  have hAid : uA.id = uid := key_of_find? User.id hA
  have hBid : uB.id = tid := key_of_find? User.id hB
  have hne : (tid == uid) = false := by
    simp only [beq_eq_false_iff_ne, ne_eq]
    exact fun h => hAB h.symm
  have hstep1 : follow db uid tid = (followPush db uid tid, .ok "User followed") := by
    simp [follow, hne, hA, hB, hnew]
  set db₁ := followPush db uid tid with hdb₁
  have hpushA : pushFn uid tid uA = { uA with following := uA.following ++ [tid] } := by
    unfold pushFn
    rw [if_pos hAid]
  have hpushB : pushFn uid tid uB = { uB with followers := uB.followers ++ [uid] } := by
    unfold pushFn
    rw [if_neg (by rw [hBid]; exact fun h => hAB h.symm), if_pos hBid]
  have hA1 : findUser db₁ uid = some { uA with following := uA.following ++ [tid] } := by
    rw [hdb₁, findUser_followPush db uid tid uid hAB, hA, Option.map_some', hpushA]
  have hB1 : findUser db₁ tid = some { uB with followers := uB.followers ++ [uid] } := by
    rw [hdb₁, findUser_followPush db uid tid tid hAB, hB, Option.map_some', hpushB]
  have hmemA1 : tid ∈ uA.following ++ [tid] := by simp
  have hmemB1 : uid ∈ uB.followers ++ [uid] := by simp
  have hinv1 : GraphInv db₁ := graphInv_followPush db uid tid uA uB hAB hA hB hnew hinv
  have hstep2 : follow db₁ uid tid = (followPull db₁ uid tid, .ok "User unfollowed") := by
    simp [follow, hne, hA1, hB1, hmemA1]
  set db₂ := followPull db₁ uid tid with hdb₂
  have hpullA : pullFn uid tid { uA with following := uA.following ++ [tid] } =
      { uA with following := (uA.following ++ [tid]).filter (fun x => x != tid) } := by
    unfold pullFn
    rw [if_pos hAid]
  have hpullB : pullFn uid tid { uB with followers := uB.followers ++ [uid] } =
      { uB with followers := (uB.followers ++ [uid]).filter (fun x => x != uid) } := by
    unfold pullFn
    rw [if_neg (by rw [hBid]; exact fun h => hAB h.symm), if_pos hBid]
  have hA2 : findUser db₂ uid =
      some { uA with following := (uA.following ++ [tid]).filter (fun x => x != tid) } := by
    rw [hdb₂, findUser_followPull db₁ uid tid uid hAB, hA1, Option.map_some', hpullA]
  have hB2 : findUser db₂ tid =
      some { uB with followers := (uB.followers ++ [uid]).filter (fun x => x != uid) } := by
    rw [hdb₂, findUser_followPull db₁ uid tid tid hAB, hB1, Option.map_some', hpullB]
  have hmemA2 : tid ∉ (uA.following ++ [tid]).filter (fun x => x != tid) := by
    intro h
    have := List.of_mem_filter h
    simp at this
  have hmemB2 : uid ∉ (uB.followers ++ [uid]).filter (fun x => x != uid) := by
    intro h
    have := List.of_mem_filter h
    simp at this
  have hinv2 : GraphInv db₂ := graphInv_followPull db₁ uid tid hAB hinv1
  exact ⟨db₁, db₂, _, _, _, _, hstep1, hA1, hB1, hmemA1, hmemB1, hinv1,
    hstep2, hA2, hB2, hmemA2, hmemB2, hinv2⟩

theorem likeTweet_eq (db : DB) (uid tid now : Nat) (t : Tweet)
    (ht : findTweet db tid = some t) :
    likeTweet db uid tid now =
      ({ db with
          tweets := db.tweets.map
            (fun x =>
              if x.id == tid then
                { x with likes := toggleLikes t.likes uid, updatedAt := now }
              else x) },
        .ok (toggleLikes t.likes uid)) := by
  simp [likeTweet, ht]

theorem likeComment_eq (db : DB) (uid cid now : Nat) (c : Comment)
    (hc : findComment db cid = some c) :
    likeComment db uid cid now =
      ({ db with
          comments := db.comments.map
            (fun x =>
              if x.id == cid then
                { x with likes := toggleLikes c.likes uid, updatedAt := now }
              else x) },
        .ok (toggleLikes c.likes uid)) := by
  simp [likeComment, hc]

theorem findTweet_mapLikes (db : DB) (tid : Nat) (t : Tweet) (L : List Nat)
    (n : Nat) (ht : findTweet db tid = some t) :
    findTweet
      { db with
        tweets := db.tweets.map
          (fun x =>
            if x.id == tid then { x with likes := L, updatedAt := n } else x) } tid
      = some { t with likes := L, updatedAt := n } := by
  have htid : t.id = tid := key_of_find? Tweet.id ht
  have hF : ∀ x : Tweet,
      ((if x.id == tid then { x with likes := L, updatedAt := n } else x) : Tweet).id
        = x.id := by
    intro x
    by_cases hx : x.id = tid <;> simp [hx]
  unfold findTweet at ht ⊢
  rw [find?_map_of_key Tweet.id _ hF tid db.tweets, ht, Option.map_some']
  simp [htid]

theorem findComment_mapLikes (db : DB) (cid : Nat) (c : Comment) (L : List Nat)
    (n : Nat) (hc : findComment db cid = some c) :
    findComment
      { db with
        comments := db.comments.map
          (fun x =>
            if x.id == cid then { x with likes := L, updatedAt := n } else x) } cid
      = some { c with likes := L, updatedAt := n } := by
  have hcid : c.id = cid := key_of_find? Comment.id hc
  have hF : ∀ x : Comment,
      ((if x.id == cid then { x with likes := L, updatedAt := n } else x) : Comment).id
        = x.id := by
    intro x
    by_cases hx : x.id = cid <;> simp [hx]
  unfold findComment at hc ⊢
  rw [find?_map_of_key Comment.id _ hF cid db.comments, hc, Option.map_some']
  simp [hcid]

theorem findUser_updateUser_self (db : DB) (i : Nat) (f : User → User)
    (hf : ∀ v, (f v).id = v.id) (u : User) (hu : findUser db i = some u) :
    findUser (updateUser db i f) i = some (f u) := by
  have hG : ∀ v : User, ((if v.id == i then f v else v) : User).id = v.id := by
    intro v
    by_cases hv : v.id = i <;> simp [hv, hf]
  have hid : u.id = i := key_of_find? User.id hu
  unfold findUser at hu ⊢
  unfold updateUser
  rw [find?_map_of_key User.id _ hG i db.users, hu, Option.map_some']
  simp [hid]

theorem findUser_updateUser_other (db : DB) (i j : Nat) (f : User → User)
    (hf : ∀ v, (f v).id = v.id) (hij : j ≠ i) :
    findUser (updateUser db i f) j = findUser db j := by
  have hG : ∀ v : User, ((if v.id == i then f v else v) : User).id = v.id := by
    intro v
    by_cases hv : v.id = i <;> simp [hv, hf]
  unfold findUser updateUser
  rw [find?_map_of_key User.id _ hG j db.users]
  cases hv : db.users.find? (fun v => v.id == j) with
  | none => rfl
  | some v =>
      have hvj : v.id = j := key_of_find? User.id hv
      have : v.id ≠ i := by rw [hvj]; exact hij
      simp [this]

/-- C9: a registration request whose password is shorter than 6
characters fails with a 400 validation error and the store is returned
unchanged — no User record is created.  (The `isLength({ min: 6 })`
validator in `POST /register` is checked before any lookup or save.) -/
theorem C9_short_password_rejected (db : DB) (newId : Nat) (r : RegisterReq)
    (h : r.password.length < 6) :
    register db newId r = (db, .error .validation) := by
  simp [register, h]

theorem C9_short_password_rejected_witness :
    (("12345" : String).length < 6) ∧
    register dbW 5
      { name := "carol", username := "carol", email := "carol@x",
        password := "12345" } = (dbW, .error .validation) :=
  ⟨by decide,
   C9_short_password_rejected dbW 5
     { name := "carol", username := "carol", email := "carol@x",
       password := "12345" } (by decide)⟩

/-- C8: the data returned by the two user reads (`GET /users/me`,
`GET /users/:username`) is independent of every stored credential hash —
replacing all hashes by arbitrary values leaves both responses
unchanged, so the hash never appears in the output. -/
theorem C8_hash_noninterference (db : DB) (f : Nat → String) (uid : Nat)
    (uname : String) :
    (getMe (setPasswords db f) uid).2 = (getMe db uid).2 ∧
    (getUserByUsername (setPasswords db f) uname).2 =
      (getUserByUsername db uname).2 := by
  have hg : ∀ u : User, (({ u with password := f u.id } : User)).id = u.id :=
    fun u => rfl
  have hg2 : ∀ u : User,
      (({ u with password := f u.id } : User)).username = u.username :=
    fun u => rfl
  have h1 : findUser (setPasswords db f) uid =
      (findUser db uid).map (fun u => { u with password := f u.id }) :=
    find?_map_of_key User.id _ hg uid db.users
  have h2 : findUserByUsername (setPasswords db f) uname =
      (findUserByUsername db uname).map (fun u => { u with password := f u.id }) :=
    find?_map_of_key User.username _ hg2 uname db.users
  constructor
  · simp only [getMe, h1]
    cases hu : findUser db uid with
    | none => rfl
    | some u => rfl
  · simp only [getUserByUsername, h2]
    cases hu : findUserByUsername db uname with
    | none => rfl
    | some u => rfl

/-- C5: deleting an existing tweet or comment as a caller who is not its
author fails with the 401 ownership error and the whole store — the
record, its parent's `comments` list, everything — is returned
unchanged: the ownership check precedes every write. -/
theorem C5_nonowner_delete_unchanged (db : DB) (uid tid cid now : Nat)
    (t : Tweet) (c : Comment)
    (ht : findTweet db tid = some t) (htu : t.user ≠ uid)
    (hc : findComment db cid = some c) (hcu : c.user ≠ uid) :
    deleteTweet db uid tid = (db, .error .forbidden) ∧
    deleteComment db uid cid now = (db, .error .forbidden) := by
  constructor
  · simp [deleteTweet, ht, htu]
  · simp [deleteComment, hc, hcu]

theorem C5_nonowner_delete_unchanged_witness :
    (findTweet dbW 7 = some tW7 ∧ tW7.user ≠ 2 ∧
     findComment dbW 9 = some cW9 ∧ cW9.user ≠ 2) ∧
    (deleteTweet dbW 2 7 = (dbW, .error .forbidden) ∧
     deleteComment dbW 2 9 11 = (dbW, .error .forbidden)) :=
  ⟨⟨by decide, by decide, by decide, by decide⟩,
   C5_nonowner_delete_unchanged dbW 2 7 9 11 tW7 cW9
     (by decide) (by decide) (by decide) (by decide)⟩

/-- C1 [evaluation at the failing input]: creating a tweet with empty
(or absent) content and no media fails with the 400 validation error and
persists nothing — that half of the claim holds.  But with empty content
AND a media attachment the operation does NOT succeed: route validation
passes, and the save is then rejected by the schema's `required` content
path (Mongoose treats an empty string as missing), surfacing as a 500
with no Tweet persisted — contradicting the claim's second half. -/
theorem C1_empty_content_eval (db : DB) (uid newId now : Nat) (path : String) :
    createTweet db uid newId now (some "") (some path) = (db, .error .internal) ∧
    createTweet db uid newId now none (some path) = (db, .error .internal) ∧
    createTweet db uid newId now (some "") none = (db, .error .validation) ∧
    createTweet db uid newId now none none = (db, .error .validation) :=
  ⟨rfl, rfl, rfl, rfl⟩

/-- C10 [counterexample]: the claim's "no field of the record other than
likes is modified" is false — both schemas run with `timestamps: true`,
so the `save()` that persists a toggled like also refreshes the record's
`updatedAt`: liking tweet 7 (stored `updatedAt` 3) at save time 99
leaves it with `updatedAt` 99. -/
theorem C10_counterexample :
    (findTweet dbW 7).map Tweet.updatedAt = some 3 ∧
    (findTweet (likeTweet dbW 1 7 99).1 7).map Tweet.updatedAt = some 99 ∧
    (99 : Nat) ≠ 3 := by decide

/-- C10 [amended]: toggle-like on a tweet (identically on a comment)
changes only the caller's own membership in `likes` and — because the
save runs under `timestamps: true` — the record's `updatedAt`: every
other field of the record is untouched, every other record is
untouched, the subsequence of other users' entries keeps its order, a
new like lands at the front, and an unlike removes exactly the caller's
entries. -/
theorem C10_amended_like_frame (db : DB) (uid tid cid now : Nat)
    (t : Tweet) (c : Comment)
    (ht : findTweet db tid = some t) (hc : findComment db cid = some c) :
    ∃ ft fc,
      likeTweet db uid tid now =
        ({ db with tweets := db.tweets.map ft }, .ok (toggleLikes t.likes uid)) ∧
      (∀ x : Tweet, x.id ≠ tid → ft x = x) ∧
      (∀ x : Tweet, x.id = tid →
        ft x = { x with likes := toggleLikes t.likes uid, updatedAt := now }) ∧
      likeComment db uid cid now =
        ({ db with comments := db.comments.map fc }, .ok (toggleLikes c.likes uid)) ∧
      (∀ x : Comment, x.id ≠ cid → fc x = x) ∧
      (∀ x : Comment, x.id = cid →
        fc x = { x with likes := toggleLikes c.likes uid, updatedAt := now }) ∧
      (toggleLikes t.likes uid).filter (fun x => x != uid) =
        t.likes.filter (fun x => x != uid) ∧
      (toggleLikes c.likes uid).filter (fun x => x != uid) =
        c.likes.filter (fun x => x != uid) ∧
      (uid ∉ t.likes → toggleLikes t.likes uid = uid :: t.likes) ∧
      (uid ∉ c.likes → toggleLikes c.likes uid = uid :: c.likes) ∧
      (uid ∈ t.likes → toggleLikes t.likes uid = t.likes.filter (fun x => x != uid)) ∧
      (uid ∈ c.likes → toggleLikes c.likes uid = c.likes.filter (fun x => x != uid)) := by
  refine ⟨fun x =>
            if x.id == tid then
              { x with likes := toggleLikes t.likes uid, updatedAt := now }
            else x,
          fun x =>
            if x.id == cid then
              { x with likes := toggleLikes c.likes uid, updatedAt := now }
            else x,
          likeTweet_eq db uid tid now t ht, ?_, ?_,
          likeComment_eq db uid cid now c hc, ?_, ?_,
          toggleLikes_frame t.likes uid, toggleLikes_frame c.likes uid,
          fun h => toggleLikes_of_not_mem h, fun h => toggleLikes_of_not_mem h,
          fun h => toggleLikes_of_mem h, fun h => toggleLikes_of_mem h⟩
  · intro x hx
    simp [hx]
  · intro x hx
    simp [hx]
  · intro x hx
    simp [hx]
  · intro x hx
    simp [hx]

theorem C10_amended_like_frame_witness :
    (findTweet dbW 7 = some tW7 ∧ findComment dbW 9 = some cW9) ∧
    (∃ ft fc,
      likeTweet dbW 1 7 99 =
        ({ dbW with tweets := dbW.tweets.map ft }, .ok (toggleLikes tW7.likes 1)) ∧
      (∀ x : Tweet, x.id ≠ 7 → ft x = x) ∧
      (∀ x : Tweet, x.id = 7 →
        ft x = { x with likes := toggleLikes tW7.likes 1, updatedAt := 99 }) ∧
      likeComment dbW 1 9 99 =
        ({ dbW with comments := dbW.comments.map fc }, .ok (toggleLikes cW9.likes 1)) ∧
      (∀ x : Comment, x.id ≠ 9 → fc x = x) ∧
      (∀ x : Comment, x.id = 9 →
        fc x = { x with likes := toggleLikes cW9.likes 1, updatedAt := 99 }) ∧
      (toggleLikes tW7.likes 1).filter (fun x => x != 1) =
        tW7.likes.filter (fun x => x != 1) ∧
      (toggleLikes cW9.likes 1).filter (fun x => x != 1) =
        cW9.likes.filter (fun x => x != 1) ∧
      (1 ∉ tW7.likes → toggleLikes tW7.likes 1 = 1 :: tW7.likes) ∧
      (1 ∉ cW9.likes → toggleLikes cW9.likes 1 = 1 :: cW9.likes) ∧
      (1 ∈ tW7.likes → toggleLikes tW7.likes 1 = tW7.likes.filter (fun x => x != 1)) ∧
      (1 ∈ cW9.likes → toggleLikes cW9.likes 1 = cW9.likes.filter (fun x => x != 1))) :=
  ⟨⟨by decide, by decide⟩,
   C10_amended_like_frame dbW 1 7 9 99 tW7 cW9 (by decide) (by decide)⟩

/-- C3 [counterexample]: the claim says toggling like twice from the
same caller returns the likes SEQUENCE to its original state.  On tweet
7 with likes `[1, 0]`, caller 0 toggles twice: the unlike removes 0 from
the tail, the re-like inserts 0 at the FRONT, ending at `[0, 1]` — same
membership, different sequence than the original `[1, 0]`. -/
theorem C3_counterexample :
    (findTweet dbW 7).map Tweet.likes = some [1, 0] ∧
    (findTweet (likeTweet (likeTweet dbW 0 7 10).1 0 7 12).1 7).map Tweet.likes =
      some [0, 1] ∧
    some ([0, 1] : List Nat) ≠ some ([1, 0] : List Nat) := by decide

/-- C3 [amended]: toggling like twice in sequence from the same caller
returns a `likes` sequence with exactly the original MEMBERSHIP (and the
exact original sequence whenever the caller was not already in it);
after any single toggle the caller appears at most once; the algorithm
is: remove the caller if present, otherwise insert it at the front.
Identically for comments. -/
theorem C3_amended_double_toggle (db : DB) (uid tid cid n₁ n₂ : Nat)
    (t : Tweet) (c : Comment)
    (ht : findTweet db tid = some t) (hc : findComment db cid = some c) :
    ∃ t₂ c₂,
      findTweet (likeTweet (likeTweet db uid tid n₁).1 uid tid n₂).1 tid = some t₂ ∧
      t₂.likes = toggleLikes (toggleLikes t.likes uid) uid ∧
      (∀ x, x ∈ t₂.likes ↔ x ∈ t.likes) ∧
      (uid ∉ t.likes → t₂.likes = t.likes) ∧
      (likeTweet db uid tid n₁).2 = .ok (toggleLikes t.likes uid) ∧
      (toggleLikes t.likes uid).count uid ≤ 1 ∧
      (uid ∈ t.likes → toggleLikes t.likes uid = t.likes.filter (fun x => x != uid)) ∧
      (uid ∉ t.likes → toggleLikes t.likes uid = uid :: t.likes) ∧
      findComment (likeComment (likeComment db uid cid n₁).1 uid cid n₂).1 cid = some c₂ ∧
      c₂.likes = toggleLikes (toggleLikes c.likes uid) uid ∧
      (∀ x, x ∈ c₂.likes ↔ x ∈ c.likes) ∧
      (uid ∉ c.likes → c₂.likes = c.likes) ∧
      (likeComment db uid cid n₁).2 = .ok (toggleLikes c.likes uid) ∧
      (toggleLikes c.likes uid).count uid ≤ 1 := by
  have hstep1 := likeTweet_eq db uid tid n₁ t ht
  have ht1 : findTweet (likeTweet db uid tid n₁).1 tid =
      some { t with likes := toggleLikes t.likes uid, updatedAt := n₁ } := by
    rw [congrArg Prod.fst hstep1]
    exact findTweet_mapLikes db tid t _ n₁ ht
  have ht2 : findTweet (likeTweet (likeTweet db uid tid n₁).1 uid tid n₂).1 tid =
      some { t with likes := toggleLikes (toggleLikes t.likes uid) uid,
                    updatedAt := n₂ } := by
    rw [congrArg Prod.fst
      (likeTweet_eq (likeTweet db uid tid n₁).1 uid tid n₂ _ ht1)]
    exact findTweet_mapLikes (likeTweet db uid tid n₁).1 tid
      { t with likes := toggleLikes t.likes uid, updatedAt := n₁ } _ n₂ ht1
  have hcstep1 := likeComment_eq db uid cid n₁ c hc
  have hc1 : findComment (likeComment db uid cid n₁).1 cid =
      some { c with likes := toggleLikes c.likes uid, updatedAt := n₁ } := by
    rw [congrArg Prod.fst hcstep1]
    exact findComment_mapLikes db cid c _ n₁ hc
  have hc2 : findComment (likeComment (likeComment db uid cid n₁).1 uid cid n₂).1 cid =
      some { c with likes := toggleLikes (toggleLikes c.likes uid) uid,
                    updatedAt := n₂ } := by
    rw [congrArg Prod.fst
      (likeComment_eq (likeComment db uid cid n₁).1 uid cid n₂ _ hc1)]
    exact findComment_mapLikes (likeComment db uid cid n₁).1 cid
      { c with likes := toggleLikes c.likes uid, updatedAt := n₁ } _ n₂ hc1
  refine ⟨{ t with likes := toggleLikes (toggleLikes t.likes uid) uid,
                   updatedAt := n₂ },
          { c with likes := toggleLikes (toggleLikes c.likes uid) uid,
                   updatedAt := n₂ },
          ht2, rfl, ?_, ?_, congrArg Prod.snd hstep1, toggleLikes_count t.likes uid,
          fun h => toggleLikes_of_mem h, fun h => toggleLikes_of_not_mem h,
          hc2, rfl, ?_, ?_, congrArg Prod.snd hcstep1, toggleLikes_count c.likes uid⟩
  · exact fun x => toggleLikes_twice_mem t.likes uid x
  · exact fun h => toggleLikes_twice_of_not_mem h
  · exact fun x => toggleLikes_twice_mem c.likes uid x
  · exact fun h => toggleLikes_twice_of_not_mem h

theorem C3_amended_double_toggle_witness :
    (findTweet dbW 7 = some tW7 ∧ findComment dbW 9 = some cW9) ∧
    (∃ t₂ c₂,
      findTweet (likeTweet (likeTweet dbW 0 7 10).1 0 7 12).1 7 = some t₂ ∧
      t₂.likes = toggleLikes (toggleLikes tW7.likes 0) 0 ∧
      (∀ x, x ∈ t₂.likes ↔ x ∈ tW7.likes) ∧
      (0 ∉ tW7.likes → t₂.likes = tW7.likes) ∧
      (likeTweet dbW 0 7 10).2 = .ok (toggleLikes tW7.likes 0) ∧
      (toggleLikes tW7.likes 0).count 0 ≤ 1 ∧
      (0 ∈ tW7.likes → toggleLikes tW7.likes 0 = tW7.likes.filter (fun x => x != 0)) ∧
      (0 ∉ tW7.likes → toggleLikes tW7.likes 0 = 0 :: tW7.likes) ∧
      findComment (likeComment (likeComment dbW 0 9 10).1 0 9 12).1 9 = some c₂ ∧
      c₂.likes = toggleLikes (toggleLikes cW9.likes 0) 0 ∧
      (∀ x, x ∈ c₂.likes ↔ x ∈ cW9.likes) ∧
      (0 ∉ cW9.likes → c₂.likes = cW9.likes) ∧
      (likeComment dbW 0 9 10).2 = .ok (toggleLikes cW9.likes 0) ∧
      (toggleLikes cW9.likes 0).count 0 ≤ 1) :=
  ⟨⟨by decide, by decide⟩,
   C3_amended_double_toggle dbW 0 7 9 10 12 tW7 cW9 (by decide) (by decide)⟩

/-- C4: when the caller is the tweet's author, deletion succeeds; in the
resulting store the tweet is gone, every comment whose parent was that
tweet is gone (fetching any of their identifiers finds nothing), no
comment parented to the tweet remains, and the users collection is
untouched. -/
theorem C4_delete_cascade (db : DB) (uid tid : Nat) (t : Tweet)
    (ht : findTweet db tid = some t) (hown : t.user = uid)
    (hnd : (db.comments.map Comment.id).Nodup) :
    ∃ db', deleteTweet db uid tid = (db', .ok ()) ∧
      findTweet db' tid = none ∧
      (∀ c ∈ db.comments, c.tweet = tid → findComment db' c.id = none) ∧
      (∀ c ∈ db'.comments, c.tweet ≠ tid) ∧
      db'.users = db.users := by
  have hstep : deleteTweet db uid tid =
      ({ db with comments := db.comments.filter (fun c => c.tweet != tid),
                 tweets := db.tweets.filter (fun x => x.id != tid) }, .ok ()) := by
    simp [deleteTweet, ht, hown]
  refine ⟨_, hstep, ?_, ?_, ?_, rfl⟩
  · unfold findTweet
    rw [List.find?_eq_none]
    intro x hx
    have h1 := List.of_mem_filter hx
    simp only [bne_iff_ne, ne_eq, decide_eq_true_eq] at h1
    simp [h1]
  · intro c hcmem hct
    unfold findComment
    rw [List.find?_eq_none]
    intro x hx
    have hxmem : x ∈ db.comments := List.mem_of_mem_filter hx
    have hxt := List.of_mem_filter hx
    simp only [bne_iff_ne, ne_eq, decide_eq_true_eq] at hxt
    intro hbeq
    have hxc : x.id = c.id := by simpa using hbeq
    have hxe : x = c := eq_of_key_nodup Comment.id hnd hxmem hcmem hxc
    rw [hxe] at hxt
    exact hxt hct
  · intro c hcmem
    have h1 := List.of_mem_filter hcmem
    simpa using h1

theorem C4_delete_cascade_witness :
    (findTweet dbW 7 = some tW7 ∧ tW7.user = 0 ∧
     (dbW.comments.map Comment.id).Nodup) ∧
    (∃ db', deleteTweet dbW 0 7 = (db', .ok ()) ∧
      findTweet db' 7 = none ∧
      (∀ c ∈ dbW.comments, c.tweet = 7 → findComment db' c.id = none) ∧
      (∀ c ∈ db'.comments, c.tweet ≠ 7) ∧
      db'.users = dbW.users) :=
  ⟨⟨by decide, by decide, by decide⟩,
   C4_delete_cascade dbW 0 7 tW7 (by decide) (by decide) (by decide)⟩

/-- C6: the timeline for an existing user returns only tweets authored
by the user or by someone in the user's `following`, contains at most 50
tweets, and is sorted newest-first by creation time; the store is not
modified. -/
theorem C6_timeline_scope_bound_order (db : DB) (uid : Nat) (u : User)
    (hu : findUser db uid = some u) :
    ∃ ts, timeline db uid = (db, .ok ts) ∧
      (∀ t ∈ ts, t.user = uid ∨ t.user ∈ u.following) ∧
      ts.length ≤ 50 ∧ List.Sorted byNewest ts := by
  have hstep : timeline db uid = (db, .ok
      ((List.insertionSort byNewest
        (db.tweets.filter
          (fun t => t.user == uid || u.following.contains t.user))).take 50)) := by
    simp [timeline, hu]
  refine ⟨_, hstep, ?_, ?_, ?_⟩
  · intro t htm
    have h1 : t ∈ List.insertionSort byNewest
        (db.tweets.filter (fun t => t.user == uid || u.following.contains t.user)) :=
      List.mem_of_mem_take htm
    have h2 : t ∈ db.tweets.filter
        (fun t => t.user == uid || u.following.contains t.user) :=
      (List.mem_insertionSort byNewest).mp h1
    have h3 := List.of_mem_filter h2
    simp only [Bool.or_eq_true, beq_iff_eq] at h3
    cases h3 with
    | inl h => exact Or.inl h
    | inr h => exact Or.inr (by simpa using h)
  · exact List.length_take_le 50 _
  · exact List.Pairwise.sublist (List.take_sublist 50 _)
      (List.sorted_insertionSort byNewest _)

theorem C6_timeline_scope_bound_order_witness :
    (findUser dbW 0 = some uW0) ∧
    (∃ ts, timeline dbW 0 = (dbW, .ok ts) ∧
      (∀ t ∈ ts, t.user = 0 ∨ t.user ∈ uW0.following) ∧
      ts.length ≤ 50 ∧ List.Sorted byNewest ts) :=
  ⟨by decide, C6_timeline_scope_bound_order dbW 0 uW0 (by decide)⟩

/-- C7 [counterexample]: the claim says every field supplied in the
request is applied.  User 0's bio is "hello"; request `rC7` supplies
`bio` as the empty string; after the update the bio is still "hello",
not the supplied value — `if (bio)` treats a present empty string as
absent. -/
theorem C7_counterexample :
    rC7.bio = some "" ∧
    (findUser (updateProfile dbW 0 rC7).1 0).map User.bio = some "hello" ∧
    ("hello" : String) ≠ "" := by decide

/-- C7 [amended]: supplied NON-EMPTY body fields and uploaded images are
applied to the caller's record; body fields that are absent or supplied
as the empty string retain their prior value (the handler's truthiness
check skips them); every other attribute of the caller and every other
user's record is unchanged. -/
theorem C7_amended_partial_patch (db : DB) (uid : Nat) (u : User)
    (r : UpdateReq) (hu : findUser db uid = some u) :
    ∃ db',
      updateProfile db uid r =
        (db', .ok (some (stripPassword (applyPatch r u)))) ∧
      findUser db' uid = some (applyPatch r u) ∧
      db'.tweets = db.tweets ∧ db'.comments = db.comments ∧
      (∀ j, j ≠ uid → findUser db' j = findUser db j) ∧
      (∀ s, r.name = some s → s ≠ "" → (applyPatch r u).name = s) ∧
      ((r.name = none ∨ r.name = some "") → (applyPatch r u).name = u.name) ∧
      (∀ s, r.bio = some s → s ≠ "" → (applyPatch r u).bio = s) ∧
      ((r.bio = none ∨ r.bio = some "") → (applyPatch r u).bio = u.bio) ∧
      (∀ s, r.location = some s → s ≠ "" → (applyPatch r u).location = s) ∧
      ((r.location = none ∨ r.location = some "") →
        (applyPatch r u).location = u.location) ∧
      (∀ s, r.website = some s → s ≠ "" → (applyPatch r u).website = s) ∧
      ((r.website = none ∨ r.website = some "") →
        (applyPatch r u).website = u.website) ∧
      (∀ p, r.profilePictureFile = some p →
        (applyPatch r u).profilePicture = some p) ∧
      (r.profilePictureFile = none →
        (applyPatch r u).profilePicture = u.profilePicture) ∧
      (∀ p, r.coverPhotoFile = some p → (applyPatch r u).coverPhoto = some p) ∧
      (r.coverPhotoFile = none → (applyPatch r u).coverPhoto = u.coverPhoto) ∧
      (applyPatch r u).id = u.id ∧ (applyPatch r u).username = u.username ∧
      (applyPatch r u).email = u.email ∧
      (applyPatch r u).password = u.password ∧
      (applyPatch r u).isVerified = u.isVerified ∧
      (applyPatch r u).followers = u.followers ∧
      (applyPatch r u).following = u.following := by
  have hid : ∀ v : User, (applyPatch r v).id = v.id := fun v => rfl
  have hfind : findUser (updateUser db uid (applyPatch r)) uid =
      some (applyPatch r u) :=
    findUser_updateUser_self db uid (applyPatch r) hid u hu
  have hstep : updateProfile db uid r =
      (updateUser db uid (applyPatch r),
        .ok (some (stripPassword (applyPatch r u)))) := by
    simp [updateProfile, hfind]
  refine ⟨updateUser db uid (applyPatch r), hstep, hfind, rfl, rfl,
    ?_, ?_, ?_, ?_, ?_, ?_, ?_, ?_, ?_, ?_, ?_, ?_, ?_,
    rfl, rfl, rfl, rfl, rfl, rfl, rfl⟩
  · intro j hj
    exact findUser_updateUser_other db uid j (applyPatch r) hid hj
  · intro s hs hne
    simp [applyPatch, hs, hne]
  · intro h
    cases h with
    | inl h => simp [applyPatch, h]
    | inr h => simp [applyPatch, h]
  · intro s hs hne
    simp [applyPatch, hs, hne]
  · intro h
    cases h with
    | inl h => simp [applyPatch, h]
    | inr h => simp [applyPatch, h]
  · intro s hs hne
    simp [applyPatch, hs, hne]
  · intro h
    cases h with
    | inl h => simp [applyPatch, h]
    | inr h => simp [applyPatch, h]
  · intro s hs hne
    simp [applyPatch, hs, hne]
  · intro h
    cases h with
    | inl h => simp [applyPatch, h]
    | inr h => simp [applyPatch, h]
  · intro p hp
    simp [applyPatch, hp]
  · intro hp
    simp [applyPatch, hp]
  · intro p hp
    simp [applyPatch, hp]
  · intro hp
    simp [applyPatch, hp]

theorem C7_amended_partial_patch_witness :
    (findUser dbW 0 = some uW0) ∧
    (∃ db',
      updateProfile dbW 0 rW =
        (db', .ok (some (stripPassword (applyPatch rW uW0)))) ∧
      findUser db' 0 = some (applyPatch rW uW0) ∧
      db'.tweets = dbW.tweets ∧ db'.comments = dbW.comments ∧
      (∀ j, j ≠ 0 → findUser db' j = findUser dbW j) ∧
      (∀ s, rW.name = some s → s ≠ "" → (applyPatch rW uW0).name = s) ∧
      ((rW.name = none ∨ rW.name = some "") →
        (applyPatch rW uW0).name = uW0.name) ∧
      (∀ s, rW.bio = some s → s ≠ "" → (applyPatch rW uW0).bio = s) ∧
      ((rW.bio = none ∨ rW.bio = some "") →
        (applyPatch rW uW0).bio = uW0.bio) ∧
      (∀ s, rW.location = some s → s ≠ "" → (applyPatch rW uW0).location = s) ∧
      ((rW.location = none ∨ rW.location = some "") →
        (applyPatch rW uW0).location = uW0.location) ∧
      (∀ s, rW.website = some s → s ≠ "" → (applyPatch rW uW0).website = s) ∧
      ((rW.website = none ∨ rW.website = some "") →
        (applyPatch rW uW0).website = uW0.website) ∧
      (∀ p, rW.profilePictureFile = some p →
        (applyPatch rW uW0).profilePicture = some p) ∧
      (rW.profilePictureFile = none →
        (applyPatch rW uW0).profilePicture = uW0.profilePicture) ∧
      (∀ p, rW.coverPhotoFile = some p →
        (applyPatch rW uW0).coverPhoto = some p) ∧
      (rW.coverPhotoFile = none →
        (applyPatch rW uW0).coverPhoto = uW0.coverPhoto) ∧
      (applyPatch rW uW0).id = uW0.id ∧
      (applyPatch rW uW0).username = uW0.username ∧
      (applyPatch rW uW0).email = uW0.email ∧
      (applyPatch rW uW0).password = uW0.password ∧
      (applyPatch rW uW0).isVerified = uW0.isVerified ∧
      (applyPatch rW uW0).followers = uW0.followers ∧
      (applyPatch rW uW0).following = uW0.following) :=
  ⟨by decide, C7_amended_partial_patch dbW 0 uW0 rW (by decide)⟩

theorem C2_follow_toggle_symmetry_witness :
    ((0 : Nat) ≠ 1 ∧ findUser dbW 0 = some uW0 ∧ findUser dbW 1 = some uW1 ∧
     (1 : Nat) ∉ uW0.following ∧ GraphInv dbW) ∧
    (∃ db₁ db₂ uA₁ uB₁ uA₂ uB₂,
      follow dbW 0 1 = (db₁, .ok "User followed") ∧
      findUser db₁ 0 = some uA₁ ∧ findUser db₁ 1 = some uB₁ ∧
      (1 : Nat) ∈ uA₁.following ∧ (0 : Nat) ∈ uB₁.followers ∧ GraphInv db₁ ∧
      follow db₁ 0 1 = (db₂, .ok "User unfollowed") ∧
      findUser db₂ 0 = some uA₂ ∧ findUser db₂ 1 = some uB₂ ∧
      (1 : Nat) ∉ uA₂.following ∧ (0 : Nat) ∉ uB₂.followers ∧ GraphInv db₂) :=
  ⟨⟨by decide, by decide, by decide, by decide, by decide⟩,
   C2_follow_toggle_symmetry dbW 0 1 uW0 uW1
     (by decide) (by decide) (by decide) (by decide) (by decide)⟩
